import Mathlib

/-!
Verification development for the `mlops-dtu` exercise notebooks
(`s1_development_environment/exercise_files`): a shallow embedding of the
two teaching notebooks ("Training Neural Networks" and "Saving and Loading
Models") and of the small pieces of PyTorch semantics they rely on.

Tensors are embedded as rationals grouped in explicitly-shaped matrices and
vectors (PyTorch tensors always carry their shape, even when they hold zero
elements).  Fallible operations (`load_state_dict`, `load_checkpoint`)
return `Option`: `none` models an uncaught exception raised by the external
framework, which the notebooks never catch.
-/

/-- A 2-dimensional tensor: a matrix of rationals with an explicit
`rows × cols` shape, as used for the weight of a `nn.Linear` layer. -/
structure Mat where
  rows : Nat
  cols : Nat
  entries : List (List ℚ)
deriving DecidableEq, Repr

/-- A matrix is well formed when its entry lists realise its declared shape. -/
def Mat.wf (m : Mat) : Prop :=
  m.entries.length = m.rows ∧ ∀ r ∈ m.entries, r.length = m.cols

instance (m : Mat) : Decidable m.wf :=
  inferInstanceAs (Decidable (m.entries.length = m.rows ∧ ∀ r ∈ m.entries, r.length = m.cols))

/-- A 1-dimensional tensor: a vector of rationals with an explicit length,
as used for the bias of a `nn.Linear` layer. -/
structure Vec where
  dim : Nat
  entries : List ℚ
deriving DecidableEq, Repr

/-- A vector is well formed when it holds as many entries as its declared
dimension. -/
def Vec.wf (v : Vec) : Prop := v.entries.length = v.dim

instance (v : Vec) : Decidable v.wf :=
  inferInstanceAs (Decidable (v.entries.length = v.dim))

/-- Zero matrix of a given shape (stand-in for framework initialisation:
the initial values are irrelevant to every claim, only the shape matters). -/
def Mat.zeros (r c : Nat) : Mat :=
  ⟨r, c, List.replicate r (List.replicate c 0)⟩

/-- Zero vector of a given dimension. -/
def Vec.zeros (n : Nat) : Vec := ⟨n, List.replicate n 0⟩

/-- An `nn.Linear(in_features, out_features)` layer: a weight matrix of
shape `(out_features, in_features)` and a bias vector of length
`out_features`. -/
structure Linear where
  in_features : Nat
  out_features : Nat
  weight : Mat
  bias : Vec
deriving DecidableEq, Repr

/-- A linear layer is well formed when its tensors have the shapes that
`nn.Linear` guarantees. -/
def Linear.wf (l : Linear) : Prop :=
  l.weight.rows = l.out_features ∧ l.weight.cols = l.in_features ∧ l.weight.wf ∧
    l.bias.dim = l.out_features ∧ l.bias.wf

instance (l : Linear) : Decidable l.wf :=
  inferInstanceAs (Decidable (l.weight.rows = l.out_features ∧
    l.weight.cols = l.in_features ∧ l.weight.wf ∧
    l.bias.dim = l.out_features ∧ l.bias.wf))

/-- Fresh `nn.Linear(nIn, nOut)` layer.  Framework weight initialisation is
random; the values are irrelevant everywhere they are used here (they are
either replaced by `load_state_dict` or only inspected for shape), so the
embedding initialises with zeros of the correct shape. -/
def Linear.init (nIn nOut : Nat) : Linear :=
  ⟨nIn, nOut, Mat.zeros nOut nIn, Vec.zeros nOut⟩

/-- Modelled from the spec: the `fc_model.Network` module referenced by the
saving/loading notebook is a configurable multi-layer perceptron — a
`ModuleList` of hidden `nn.Linear` layers, one output `nn.Linear` layer and
a `nn.Dropout` module (the notebook prints its repr:
`hidden_layers` of consecutive `Linear`s, `output`, `Dropout(p=0.5)`). -/
structure Network where
  hidden_layers : List Linear
  output : Linear
  drop_p : ℚ
deriving DecidableEq, Repr

/-- A network is well formed when all of its layers are. -/
def Network.wf (net : Network) : Prop :=
  (∀ l ∈ net.hidden_layers, l.wf) ∧ net.output.wf

instance (net : Network) : Decidable net.wf :=
  inferInstanceAs (Decidable ((∀ l ∈ net.hidden_layers, l.wf) ∧ net.output.wf))

/-- Modelled from the spec: `fc_model.Network(input_size, output_size,
hidden_layers)` (the `fc_model` module itself is referenced but not stored
in the repository).  It builds hidden linear layers with consecutive sizes
`input_size → h1 → h2 → … → hk`, an output layer `hk → output_size`, and a
dropout module with the default probability `0.5` (shown by the repr the
notebook prints).  The source indexes `hidden_layers[0]` and
`hidden_layers[-1]`, so it requires a non-empty width list; every call in
the notebooks passes a non-empty list. -/
def Network.make (input_size output_size : Nat) (hidden_layers : List Nat) : Network :=
  { hidden_layers :=
      ((input_size :: hidden_layers).zip hidden_layers).map (fun p => Linear.init p.1 p.2)
    output := Linear.init (hidden_layers.getLastD input_size) output_size
    drop_p := 1/2 }

/-- The value of `model.state_dict()` for a `fc_model.Network`: the weight
and bias tensors of each hidden layer, in order, followed by the output
layer's weight and bias.  The string keys under which PyTorch files these
tensors are recovered by `StateDict.keys`. -/
structure StateDict where
  hidden : List (Mat × Vec)
  outW : Mat
  outB : Vec
deriving DecidableEq, Repr

/-- Read off the state dict of a network. -/
def Network.state_dict (net : Network) : StateDict :=
  { hidden := net.hidden_layers.map (fun l => (l.weight, l.bias))
    outW := net.output.weight
    outB := net.output.bias }

/-- String keys of the hidden-layer entries of a state dict, starting at
index `n`: PyTorch derives them as `hidden_layers.<index>.weight` and
`hidden_layers.<index>.bias`. -/
def sdHiddenKeys : Nat → List (Mat × Vec) → List String
  | _, [] => []
  | n, _ :: rest =>
      ("hidden_layers." ++ toString n ++ ".weight")
        :: ("hidden_layers." ++ toString n ++ ".bias")
        :: sdHiddenKeys (n + 1) rest

/-- All keys of a state dict, in the order PyTorch reports them. -/
def StateDict.keys (sd : StateDict) : List String :=
  sdHiddenKeys 0 sd.hidden ++ ["output.weight", "output.bias"]

/-- PyTorch's shape check when loading one parameter pair into a layer:
the incoming tensors must have exactly the shape of the layer's current
parameters, otherwise `load_state_dict` raises (modelled by `none`). -/
def Linear.loadPair (l : Linear) (w : Mat) (b : Vec) : Option Linear :=
  if w.rows = l.weight.rows ∧ w.cols = l.weight.cols ∧ b.dim = l.bias.dim then
    some { l with weight := w, bias := b }
  else none

/-- Load the hidden-layer entries of a state dict into the hidden layers of
a model, position by position.  A length mismatch between the two lists is
PyTorch's "missing key"/"unexpected key" error (the keys are exactly the
layer indices), modelled by `none`. -/
def loadLayers : List Linear → List (Mat × Vec) → Option (List Linear)
  | [], [] => some []
  | l :: ls, wb :: rest =>
      (l.loadPair wb.1 wb.2).bind fun l' =>
        (loadLayers ls rest).map fun ls' => l' :: ls'
  | [], _ :: _ => none
  | _ :: _, [] => none

/-- `model.load_state_dict(state_dict)` with the default strict semantics:
every key of the state dict must correspond to a layer of the model and
every tensor shape must match the layer's parameter shape; on success all
parameters are replaced by the checkpoint's tensors.  Any failure raises an
error that the notebooks never catch, modelled by `none`. -/
def Network.load_state_dict (net : Network) (sd : StateDict) : Option Network :=
  (loadLayers net.hidden_layers sd.hidden).bind fun hs =>
    (net.output.loadPair sd.outW sd.outB).map fun out =>
      { net with hidden_layers := hs, output := out }

/-- Values a checkpoint dictionary can hold. -/
inductive CVal where
  | natV (n : Nat)
  | listV (l : List Nat)
  | sdV (sd : StateDict)
deriving DecidableEq, Repr

/-- The checkpoint dictionary built in the saving/loading notebook, as a
key/value list in the literal's order:
`{"input_size": …, "output_size": …, "hidden_layers": [each.out_features
for each in model.hidden_layers], "state_dict": model.state_dict()}`.
`torch.save`/`torch.load` round-trip this value unchanged through the file,
so serialisation is not modelled separately. -/
def checkpointDict (input_size output_size : Nat) (model : Network) : List (String × CVal) :=
  [("input_size", CVal.natV input_size),
   ("output_size", CVal.natV output_size),
   ("hidden_layers", CVal.listV (model.hidden_layers.map Linear.out_features)),
   ("state_dict", CVal.sdV model.state_dict)]

/-- `load_checkpoint` from the saving/loading notebook: read the checkpoint
back, rebuild a `fc_model.Network` from the stored architecture metadata,
and load the stored state dict into it.  Errors from `load_state_dict`
propagate (the notebook has no handler). -/
def load_checkpoint (c : List (String × CVal)) : Option Network :=
  match c.lookup "input_size", c.lookup "output_size",
      c.lookup "hidden_layers", c.lookup "state_dict" with
  | some (CVal.natV i), some (CVal.natV o), some (CVal.listV hs), some (CVal.sdV sd) =>
      (Network.make i o hs).load_state_dict sd
  | _, _, _, _ => none

/-- Shape equality of two linear layers. -/
def Linear.shapeEq (a b : Linear) : Bool :=
  a.in_features == b.in_features && a.out_features == b.out_features

/-- Pointwise shape equality of two lists of layers (false when the lengths
differ). -/
def shapesEqList : List Linear → List Linear → Bool
  | [], [] => true
  | a :: as, b :: bs => Linear.shapeEq a b && shapesEqList as bs
  | [], _ :: _ => false
  | _ :: _, [] => false

/-- Two networks have identical layer shapes. -/
def Network.archEq (a b : Network) : Bool :=
  shapesEqList a.hidden_layers b.hidden_layers && Linear.shapeEq a.output b.output

/-!
The MNIST training cell of the "Training Neural Networks" notebook.  The
model forward pass, the criterion and the gradient that `loss.backward()`
produces are computed by the external framework; the embedding takes them
as parameters (`modelF`, `crit`, `gradL`) and transcribes the loop the
notebook authors around them, statement by statement.
-/

/-- One batch yielded by `trainloader`: a list of images (2-dimensional
pixel grids, the `(1, 28, 28)` channel dimension collapsed) together with
their integer labels. -/
structure Batch where
  images : List (List (List ℚ))
  labels : List Nat
deriving DecidableEq, Repr

/-- The mutable state of the training cell: the model parameters (as one
flat vector, the way the optimizer sees them), the accumulated gradients,
the running loss of the current epoch, and the intermediate values the loop
body binds (`images` after flattening, `output`, `loss`). -/
structure LoopState where
  params : List ℚ
  grads : List ℚ
  running_loss : ℚ
  flat : List (List ℚ)
  output : List (List ℚ)
  lossv : ℚ
deriving DecidableEq, Repr

/-- `images = images.view(images.shape[0], -1)`: row-major flattening of
each image of the batch into a single vector. -/
def opFlatten (b : Batch) (st : LoopState) : LoopState :=
  { st with flat := b.images.map List.flatten }

/-- `output = model(images)`: forward pass of the framework model (given by
`modelF`) on every flattened image, reading the current parameters. -/
def opForward (modelF : List ℚ → List ℚ → List ℚ) (st : LoopState) : LoopState :=
  { st with output := st.flat.map (modelF st.params) }

/-- `loss = criterion(output, labels)`: the framework loss (given by
`crit`) of the forward outputs against the labels. -/
def opLoss (crit : List (List ℚ) → List Nat → ℚ) (b : Batch) (st : LoopState) : LoopState :=
  { st with lossv := crit st.output b.labels }

/-- `optimizer.zero_grad()`: reset every accumulated gradient to zero. -/
def opZeroGrad (st : LoopState) : LoopState :=
  { st with grads := st.grads.map fun _ => 0 }

/-- `loss.backward()`: autograd adds the gradient of the current loss (given
by `gradL` from the parameters, the flattened images and the labels) onto
the stored gradients — gradients accumulate across backward passes. -/
def opBackward (gradL : List ℚ → List (List ℚ) → List Nat → List ℚ) (b : Batch)
    (st : LoopState) : LoopState :=
  { st with grads := List.zipWith (· + ·) st.grads (gradL st.params st.flat b.labels) }

/-- `optimizer.step()` for SGD: update every parameter by `-lr` times its
stored gradient. -/
def opStep (lr : ℚ) (st : LoopState) : LoopState :=
  { st with params := List.zipWith (fun p g => p - lr * g) st.params st.grads }

/-- `running_loss += loss.item()`. -/
def opAccum (st : LoopState) : LoopState :=
  { st with running_loss := st.running_loss + st.lossv }

/-- The body of the inner loop of the training cell, exactly in source
order: flatten, forward, loss, `zero_grad`, `backward`, `step`, accumulate
the loss. -/
def trainBatch (modelF : List ℚ → List ℚ → List ℚ)
    (crit : List (List ℚ) → List Nat → ℚ)
    (gradL : List ℚ → List (List ℚ) → List Nat → List ℚ)
    (lr : ℚ) (b : Batch) (st : LoopState) : LoopState :=
  opAccum (opStep lr (opBackward gradL b (opZeroGrad (opLoss crit b
    (opForward modelF (opFlatten b st))))))

/-- One epoch: set `running_loss = 0`, then run the loop body over every
batch of `trainloader` in order. -/
def runEpoch (modelF : List ℚ → List ℚ → List ℚ)
    (crit : List (List ℚ) → List Nat → ℚ)
    (gradL : List ℚ → List (List ℚ) → List Nat → List ℚ)
    (lr : ℚ) (batches : List Batch) (st : LoopState) : LoopState :=
  List.foldl (fun s b => trainBatch modelF crit gradL lr b s)
    { st with running_loss := 0 } batches

/-- The loss value computed inside the loop body for batch `b` in state
`st` (the value of `loss.item()` added to `running_loss`). -/
def batchLoss (modelF : List ℚ → List ℚ → List ℚ)
    (crit : List (List ℚ) → List Nat → ℚ)
    (b : Batch) (st : LoopState) : ℚ :=
  (opLoss crit b (opForward modelF (opFlatten b st))).lossv

/-- The per-batch loss values recorded during one epoch, in processing
order. -/
def epochLosses (modelF : List ℚ → List ℚ → List ℚ)
    (crit : List (List ℚ) → List Nat → ℚ)
    (gradL : List ℚ → List (List ℚ) → List Nat → List ℚ)
    (lr : ℚ) : List Batch → LoopState → List ℚ
  | [], _ => []
  | b :: bs, st =>
      batchLoss modelF crit b st
        :: epochLosses modelF crit gradL lr bs (trainBatch modelF crit gradL lr b st)

/-- One epoch followed by the `for…else` print: the value printed is
`running_loss / len(trainloader)`. -/
def epochPrint (modelF : List ℚ → List ℚ → List ℚ)
    (crit : List (List ℚ) → List Nat → ℚ)
    (gradL : List ℚ → List (List ℚ) → List Nat → List ℚ)
    (lr : ℚ) (batches : List Batch) (st : LoopState) : ℚ × LoopState :=
  let st' := runEpoch modelF crit gradL lr batches st
  (st'.running_loss / (batches.length : ℚ), st')

/-- The outer loop `for _ in range(epochs)`: run `n` epochs, returning the
printed training-loss values in order together with the final state. -/
def trainLoop (modelF : List ℚ → List ℚ → List ℚ)
    (crit : List (List ℚ) → List Nat → ℚ)
    (gradL : List ℚ → List (List ℚ) → List Nat → List ℚ)
    (lr : ℚ) : Nat → List Batch → LoopState → List ℚ × LoopState
  | 0, _, st => ([], st)
  | n + 1, batches, st =>
      let p := epochPrint modelF crit gradL lr batches st
      let rest := trainLoop modelF crit gradL lr n batches p.2
      (p.1 :: rest.1, rest.2)

/-- `epochs = 5` in the MNIST training cell. -/
def mnistEpochs : Nat := 5

/-- The `epochs=2` argument of the `fc_model.train(model, trainloader,
testloader, criterion, optimizer, epochs=2)` call in the saving/loading
notebook. -/
def fcTrainEpochsArg : Nat := 2

/-!
Operations the notebooks perform on a model, as a command language over the
training state plus an observation log, used to state frame properties
(which operations can change parameter values).
-/

/-- The model-touching operations appearing in the notebooks. -/
inductive TOp where
  | flatten (b : Batch)
  | forward
  | lossOf (b : Batch)
  | zeroGrad
  | backward (b : Batch)
  | step
  | accum
  | readStateDict
  | saveCheckpoint (path : String)
deriving DecidableEq, Repr

/-- Training state extended with the externally visible observations:
checkpoint files written (path paired with the parameter snapshot saved)
and state dicts read. -/
structure MState where
  loop : LoopState
  savedFiles : List (String × List ℚ)
  readDicts : List (List ℚ)
deriving DecidableEq, Repr

/-- Semantics of one operation.  `readStateDict` and `saveCheckpoint` only
record an observation of the current parameters; every other constructor
is the corresponding statement of the training cell. -/
def applyTOp (modelF : List ℚ → List ℚ → List ℚ)
    (crit : List (List ℚ) → List Nat → ℚ)
    (gradL : List ℚ → List (List ℚ) → List Nat → List ℚ)
    (lr : ℚ) : TOp → MState → MState
  | TOp.flatten b, ms => { ms with loop := opFlatten b ms.loop }
  | TOp.forward, ms => { ms with loop := opForward modelF ms.loop }
  | TOp.lossOf b, ms => { ms with loop := opLoss crit b ms.loop }
  | TOp.zeroGrad, ms => { ms with loop := opZeroGrad ms.loop }
  | TOp.backward b, ms => { ms with loop := opBackward gradL b ms.loop }
  | TOp.step, ms => { ms with loop := opStep lr ms.loop }
  | TOp.accum, ms => { ms with loop := opAccum ms.loop }
  | TOp.readStateDict, ms => { ms with readDicts := ms.readDicts ++ [ms.loop.params] }
  | TOp.saveCheckpoint p, ms => { ms with savedFiles := ms.savedFiles ++ [(p, ms.loop.params)] }

/-- Run a list of operations in order. -/
def applyTOps (modelF : List ℚ → List ℚ → List ℚ)
    (crit : List (List ℚ) → List Nat → ℚ)
    (gradL : List ℚ → List (List ℚ) → List Nat → List ℚ)
    (lr : ℚ) (ops : List TOp) (ms : MState) : MState :=
  ops.foldl (fun s op => applyTOp modelF crit gradL lr op s) ms

/-!
Persistent-storage effects of the two notebooks, cell by cell.
-/

/-- An access to persistent storage performed by a notebook cell:
a dataset constructor called with `download=True` (which creates the
dataset files under its root directory when they are absent), a
`torch.save`, or a `torch.load`. -/
inductive FsEvent where
  | datasetDownload (root : String)
  | save (path : String)
  | load (path : String)
deriving DecidableEq, Repr

/-- Every persistent-storage access of the two notebooks, in cell order:
`datasets.MNIST("~/.pytorch/MNIST_data/", download=True, …)` in the
training notebook; then, in the saving/loading notebook,
`datasets.FashionMNIST("~/.pytorch/F_MNIST_data/", download=True, …)` for
the train and the test split, `torch.save(model.state_dict(),
"checkpoint.pth")`, `torch.load("checkpoint.pth")`, `torch.save(checkpoint,
"checkpoint.pth")`, and the `torch.load(filepath)` inside
`load_checkpoint("checkpoint.pth")`. -/
def notebookFsEvents : List FsEvent :=
  [FsEvent.datasetDownload "~/.pytorch/MNIST_data/",
   FsEvent.datasetDownload "~/.pytorch/F_MNIST_data/",
   FsEvent.datasetDownload "~/.pytorch/F_MNIST_data/",
   FsEvent.save "checkpoint.pth",
   FsEvent.load "checkpoint.pth",
   FsEvent.save "checkpoint.pth",
   FsEvent.load "checkpoint.pth"]

/-- Whether an event creates or modifies files on persistent storage. -/
def FsEvent.createsOrModifies : FsEvent → Bool
  | FsEvent.datasetDownload _ => true
  | FsEvent.save _ => true
  | FsEvent.load _ => false

/-- The path (file or root directory) an event touches. -/
def FsEvent.target : FsEvent → String
  | FsEvent.datasetDownload r => r
  | FsEvent.save p => p
  | FsEvent.load p => p

/-!
The autograd demonstration `y = x**2; z = y.mean(); z.backward()`.
The tensor `x` is embedded as the flat list of its elements; `z.backward()`
runs the chain of vector-Jacobian products recorded by autograd
(`MeanBackward0` then `PowBackward0`, the `grad_fn`s the notebook prints)
with seed gradient `1` at `z`.
-/

/-- Forward `y = x**2`: elementwise square. -/
def powForward (x : List ℚ) : List ℚ := x.map fun t => t * t

/-- Forward `z = y.mean()`. -/
def meanForward (y : List ℚ) : ℚ := y.sum / (y.length : ℚ)

/-- Backward of `mean` (`MeanBackward0`): an upstream gradient `gz` on the
mean of `n` elements contributes `gz / n` to each element. -/
def meanBackward (n : Nat) (gz : ℚ) : List ℚ := List.replicate n (gz / (n : ℚ))

/-- Backward of the elementwise square (`PowBackward0`): each upstream
gradient is multiplied by `2 * xᵢ`. -/
def powBackward (x gy : List ℚ) : List ℚ := List.zipWith (fun t g => g * (2 * t)) x gy

/-- The value of `x.grad` after `z.backward()`: seed `1` at `z`, propagated
through `MeanBackward0` and then `PowBackward0`. -/
def gradOfMeanSq (x : List ℚ) : List ℚ :=
  powBackward x (meanBackward (powForward x).length 1)

/-! ### Helper lemmas -/

lemma sdHiddenKeys_eq (xs : List (Mat × Vec)) :
    ∀ s, sdHiddenKeys s xs
      = ((List.range' s xs.length).map fun k =>
          ["hidden_layers." ++ toString k ++ ".weight",
           "hidden_layers." ++ toString k ++ ".bias"]).flatten := by
  induction xs with
  | nil => intro s; simp [sdHiddenKeys]
  | cons x xs ih =>
      intro s
      simp [sdHiddenKeys, List.range'_succ, ih (s + 1)]

lemma zipWith_replicate_self (f : ℚ → ℚ → ℚ) (c : ℚ) (xs : List ℚ) :
    List.zipWith f xs (List.replicate xs.length c) = xs.map fun t => f t c := by
  induction xs with
  | nil => rfl
  | cons x xs ih => simp [List.replicate_succ, ih]

lemma zipWith_add_replicate_zero (n : Nat) (g : List ℚ) (h : g.length = n) :
    List.zipWith (· + ·) (List.replicate n (0 : ℚ)) g = g := by
  induction g generalizing n with
  | nil => cases n <;> rfl
  | cons a g ih =>
      cases n with
      | zero => simp at h
      | succ n =>
          simp only [List.length_cons, Nat.succ.injEq] at h
          simp [List.replicate_succ, ih n h]

lemma zipWith_add_zero_map (l g : List ℚ) (h : g.length = l.length) :
    List.zipWith (· + ·) (l.map fun _ => (0 : ℚ)) g = g := by
  have : l.map (fun _ => (0 : ℚ)) = List.replicate l.length 0 := by
    simp [List.map_const']
  rw [this, zipWith_add_replicate_zero l.length g h]

lemma shapeEq_refl (l : Linear) : Linear.shapeEq l l = true := by
  simp [Linear.shapeEq]

lemma shapesEqList_refl (ls : List Linear) : shapesEqList ls ls = true := by
  induction ls with
  | nil => rfl
  | cons l ls ih => simp [shapesEqList, shapeEq_refl, ih]

lemma loadPair_eq_of_shapeEq (l src : Linear) (hl : l.wf) (hsrc : src.wf)
    (h : Linear.shapeEq l src = true) : l.loadPair src.weight src.bias = some src := by
  obtain ⟨hlr, hlc, -, hlb, -⟩ := hl
  obtain ⟨hsr, hsc, -, hsb, -⟩ := hsrc
  rw [Linear.shapeEq, Bool.and_eq_true, beq_iff_eq, beq_iff_eq] at h
  obtain ⟨hin, hout⟩ := h
  have hcond : src.weight.rows = l.weight.rows ∧ src.weight.cols = l.weight.cols ∧
      src.bias.dim = l.bias.dim := by refine ⟨?_, ?_, ?_⟩ <;> omega
  rw [Linear.loadPair, if_pos hcond]
  cases l with
  | mk li lo lw lb =>
      cases src with
      | mk si so sw sb => simp_all

lemma loadPair_isSome (l src : Linear) (hl : l.wf) (hsrc : src.wf) :
    (l.loadPair src.weight src.bias).isSome = Linear.shapeEq l src := by
  by_cases h : Linear.shapeEq l src = true
  · rw [loadPair_eq_of_shapeEq l src hl hsrc h, h, Option.isSome_some]
  · obtain ⟨hlr, hlc, -, hlb, -⟩ := hl
    obtain ⟨hsr, hsc, -, hsb, -⟩ := hsrc
    rw [Linear.shapeEq, Bool.and_eq_true, beq_iff_eq, beq_iff_eq] at h
    push_neg at h
    have hcond : ¬ (src.weight.rows = l.weight.rows ∧ src.weight.cols = l.weight.cols ∧
        src.bias.dim = l.bias.dim) := by
      intro hc
      obtain ⟨h1, h2, h3⟩ := hc
      rcases Decidable.em (l.in_features = src.in_features) with hi | hi
      · exact absurd (by omega : l.out_features = src.out_features) (h hi)
      · exact hi (by omega)
    rw [Linear.loadPair, if_neg hcond, Option.isSome_none, Linear.shapeEq]
    rcases Decidable.em (l.in_features = src.in_features) with hi | hi
    · have : l.out_features ≠ src.out_features := h hi
      simp [this]
    · simp [hi]

lemma loadLayers_eq (ls : List Linear) : ∀ ms : List Linear,
    (∀ l ∈ ls, l.wf) → (∀ m ∈ ms, m.wf) → shapesEqList ls ms = true →
    loadLayers ls (ms.map fun m => (m.weight, m.bias)) = some ms := by
  induction ls with
  | nil => intro ms _ _ hshape; cases ms with
      | nil => rfl
      | cons m ms => simp [shapesEqList] at hshape
  | cons l ls ih =>
      intro ms hwl hwm hshape
      cases ms with
      | nil => simp [shapesEqList] at hshape
      | cons m ms =>
          rw [shapesEqList, Bool.and_eq_true] at hshape
          have hlp := loadPair_eq_of_shapeEq l m (hwl l (by simp)) (hwm m (by simp)) hshape.1
          have hrec := ih ms (fun a ha => hwl a (by simp [ha])) (fun a ha => hwm a (by simp [ha]))
            hshape.2
          simp [loadLayers, hlp, hrec]

lemma loadLayers_isSome (ls : List Linear) : ∀ ms : List Linear,
    (∀ l ∈ ls, l.wf) → (∀ m ∈ ms, m.wf) →
    (loadLayers ls (ms.map fun m => (m.weight, m.bias))).isSome = shapesEqList ls ms := by
  induction ls with
  | nil => intro ms _ _; cases ms with
      | nil => rfl
      | cons m ms => rfl
  | cons l ls ih =>
      intro ms hwl hwm
      cases ms with
      | nil => rfl
      | cons m ms =>
          have hp := loadPair_isSome l m (hwl l (by simp)) (hwm m (by simp))
          have hrec := ih ms (fun a ha => hwl a (by simp [ha])) (fun a ha => hwm a (by simp [ha]))
          cases hlp : l.loadPair m.weight m.bias with
          | none =>
              rw [hlp] at hp
              simp only [Option.isSome_none] at hp
              simp [loadLayers, hlp, shapesEqList, ← hp]
          | some l' =>
              rw [hlp] at hp
              rw [shapesEqList, ← hp, ← hrec]
              simp only [List.map_cons, loadLayers, hlp, Option.some_bind, Bool.true_and]
              cases loadLayers ls (ms.map fun m => (m.weight, m.bias)) <;> simp

lemma init_wf (nIn nOut : Nat) : (Linear.init nIn nOut).wf := by
  refine ⟨rfl, rfl, ⟨?_, ?_⟩, rfl, ?_⟩
  · simp [Linear.init, Mat.zeros]
  · intro r hr
    simp only [Linear.init, Mat.zeros, List.mem_replicate] at hr
    simp [hr.2, Linear.init, Mat.zeros]
  · simp [Linear.init, Vec.zeros, Vec.wf]

lemma make_wf (i o : Nat) (hs : List Nat) : (Network.make i o hs).wf := by
  constructor
  · intro l hl
    simp only [Network.make, List.mem_map] at hl
    obtain ⟨p, -, rfl⟩ := hl
    exact init_wf p.1 p.2
  · exact init_wf _ _

lemma load_state_dict_eq (target m : Network) (ht : target.wf) (hm : m.wf)
    (h : Network.archEq target m = true) :
    target.load_state_dict m.state_dict
      = some { target with hidden_layers := m.hidden_layers, output := m.output } := by
  rw [Network.archEq, Bool.and_eq_true] at h
  have h1 := loadLayers_eq target.hidden_layers m.hidden_layers ht.1 hm.1 h.1
  have h2 := loadPair_eq_of_shapeEq target.output m.output ht.2 hm.2 h.2
  simp [Network.load_state_dict, Network.state_dict, h1, h2]

lemma shapesEqList_out (ls : List Linear) : ∀ ms : List Linear, shapesEqList ls ms = true →
    ls.map Linear.out_features = ms.map Linear.out_features := by
  induction ls with
  | nil => intro ms h; cases ms with
      | nil => rfl
      | cons m ms => simp [shapesEqList] at h
  | cons l ls ih =>
      intro ms h
      cases ms with
      | nil => simp [shapesEqList] at h
      | cons m ms =>
          rw [shapesEqList, Bool.and_eq_true] at h
          have hout : l.out_features = m.out_features := by
            have := h.1
            rw [Linear.shapeEq, Bool.and_eq_true, beq_iff_eq, beq_iff_eq] at this
            exact this.2
          simp [hout, ih ms h.2]

lemma zip_cons_snd (l : List Nat) : ∀ a : Nat, ((a :: l).zip l).map Prod.snd = l := by
  induction l with
  | nil => intro a; rfl
  | cons x xs ih => intro a; simp [List.zip_cons_cons, ih x]

lemma make_out_features (i o : Nat) (hs : List Nat) :
    (Network.make i o hs).hidden_layers.map Linear.out_features = hs := by
  simp only [Network.make, List.map_map]
  have : (Linear.out_features ∘ fun p : Nat × Nat => Linear.init p.1 p.2) = Prod.snd := rfl
  rw [this, zip_cons_snd hs i]

lemma isSome_bind_map {α β γ : Type} (o1 : Option α) (o2 : Option β) (f : α → β → γ) :
    (o1.bind fun a => o2.map fun b => f a b).isSome = (o1.isSome && o2.isSome) := by
  cases o1 <;> cases o2 <;> rfl

lemma trainBatch_running_loss (f : List ℚ → List ℚ → List ℚ)
    (c : List (List ℚ) → List Nat → ℚ) (g : List ℚ → List (List ℚ) → List Nat → List ℚ)
    (lr : ℚ) (b : Batch) (st : LoopState) :
    (trainBatch f c g lr b st).running_loss = st.running_loss + batchLoss f c b st := rfl

lemma foldl_running_loss (f : List ℚ → List ℚ → List ℚ)
    (c : List (List ℚ) → List Nat → ℚ) (g : List ℚ → List (List ℚ) → List Nat → List ℚ)
    (lr : ℚ) (bs : List Batch) : ∀ st : LoopState,
    (List.foldl (fun s b => trainBatch f c g lr b s) st bs).running_loss
      = st.running_loss + (epochLosses f c g lr bs st).sum := by
  induction bs with
  | nil => intro st; simp [epochLosses]
  | cons b bs ih =>
      intro st
      rw [List.foldl_cons, ih (trainBatch f c g lr b st), trainBatch_running_loss, epochLosses]
      simp [add_assoc]

/-! ### The claims -/

/-- C3: A persisted checkpoint is a mapping from layer identifiers to
weight and bias tensors: the saved state dict's keys are exactly
`hidden_layers.N.weight` and `hidden_layers.N.bias` for each hidden layer
index `N` plus `output.weight` and `output.bias`; the metadata-bearing
checkpoint dict contains exactly the four keys `input_size`,
`output_size`, `hidden_layers` and `state_dict`, where `hidden_layers` is
the list of `out_features` of the model's hidden layers in order and
`state_dict` is the model's state dict. -/
theorem checkpoint_and_state_dict_keys (i o : Nat) (m : Network) :
    (checkpointDict i o m).map Prod.fst
        = ["input_size", "output_size", "hidden_layers", "state_dict"]
    ∧ (checkpointDict i o m).lookup "hidden_layers"
        = some (CVal.listV (m.hidden_layers.map Linear.out_features))
    ∧ (checkpointDict i o m).lookup "state_dict" = some (CVal.sdV m.state_dict)
    ∧ m.state_dict.keys
        = ((List.range m.hidden_layers.length).map fun k =>
            ["hidden_layers." ++ toString k ++ ".weight",
             "hidden_layers." ++ toString k ++ ".bias"]).flatten
          ++ ["output.weight", "output.bias"] := by
  refine ⟨rfl, rfl, rfl, ?_⟩
  rw [StateDict.keys, sdHiddenKeys_eq]
  have hlen : (Network.state_dict m).hidden.length = m.hidden_layers.length := by
    simp [Network.state_dict]
  rw [hlen, ← List.range_eq_range']

/-- C6: For every input size `i`, output size `o` and non-empty width list
`h1 :: hs`, `fc_model.Network` builds hidden linear layers with the
consecutive shapes `i→h1, h1→h2, …`, an output linear layer from the last
hidden width to `o`, and a dropout module (with the default `p = 0.5`). -/
theorem fc_network_layer_shapes (i o h1 : Nat) (hs : List Nat) :
    (Network.make i o (h1 :: hs)).hidden_layers.map (fun l => (l.in_features, l.out_features))
        = (i :: h1 :: hs).zip (h1 :: hs)
    ∧ (Network.make i o (h1 :: hs)).output.in_features
        = (h1 :: hs).getLast (List.cons_ne_nil h1 hs)
    ∧ (Network.make i o (h1 :: hs)).output.out_features = o
    ∧ (Network.make i o (h1 :: hs)).drop_p = 1/2 := by
  refine ⟨?_, rfl, rfl, rfl⟩
  have hfun : ((fun l : Linear => (l.in_features, l.out_features))
      ∘ fun p : Nat × Nat => Linear.init p.1 p.2) = id :=
    funext fun p => Prod.mk.eta
  simp only [Network.make, List.map_map, hfun, List.map_id]

/-- C8: For every tensor `x`, computing `z = (x**2).mean()` and running
`z.backward()` leaves `x.grad = 2 * x / n` where `n` is the number of
elements of `x`. -/
theorem backward_of_mean_square (x : List ℚ) :
    gradOfMeanSq x = x.map fun t => 2 * t / (x.length : ℚ) := by
  simp only [gradOfMeanSq, powForward, powBackward, meanBackward, List.length_map]
  rw [zipWith_replicate_self]
  have : (fun t : ℚ => 1 / ((x.length : ℚ)) * (2 * t)) = fun t : ℚ => 2 * t / (x.length : ℚ) :=
    funext fun t => by ring
  rw [this]

/-- C2: Loading a state dict into a model succeeds exactly when every
tensor shape in the checkpoint matches the corresponding layer shape of
the instantiated model (`isSome` is success; `none` is the error the
external framework raises, which no notebook code catches). -/
theorem load_state_dict_shape_check (m target : Network) (hm : m.wf) (ht : target.wf) :
    (target.load_state_dict m.state_dict).isSome = Network.archEq target m := by
  have h1 := loadLayers_isSome target.hidden_layers m.hidden_layers ht.1 hm.1
  have h2 := loadPair_isSome target.output m.output ht.2 hm.2
  rw [Network.archEq, ← h1, ← h2]
  simp only [Network.load_state_dict, Network.state_dict, isSome_bind_map]

/-- Witness for C2 at a concrete mismatch: a network with hidden widths
`[5]` cannot load the state dict of one with hidden widths `[4]`. -/
theorem load_state_dict_shape_check_witness :
    ((Network.make 3 2 [5]).load_state_dict (Network.make 3 2 [4]).state_dict).isSome
      = Network.archEq (Network.make 3 2 [5]) (Network.make 3 2 [4]) :=
  load_state_dict_shape_check (Network.make 3 2 [4]) (Network.make 3 2 [5])
    (by decide) (by decide)

/-- C1: Saving a checkpoint dict (`input_size`, `output_size`, the hidden
layers' `out_features`, and the `state_dict`) of a model built by
`fc_model.Network(i, o, hs)` and calling `load_checkpoint` on it returns a
model whose layer shapes are identical to the saved model's and whose
parameter tensors equal the saved ones. -/
theorem checkpoint_roundtrip (i o : Nat) (hs : List Nat) (m : Network)
    (hm : m.wf) (harch : Network.archEq (Network.make i o hs) m = true) :
    ∃ m', load_checkpoint (checkpointDict i o m) = some m'
      ∧ Network.archEq m' m = true ∧ m'.state_dict = m.state_dict := by
  have hout : m.hidden_layers.map Linear.out_features = hs := by
    have h := harch
    rw [Network.archEq, Bool.and_eq_true] at h
    have h' := shapesEqList_out _ _ h.1
    rw [make_out_features] at h'
    exact h'.symm
  have hred : load_checkpoint (checkpointDict i o m)
      = (Network.make i o (m.hidden_layers.map Linear.out_features)).load_state_dict
          m.state_dict := rfl
  rw [hred, hout, load_state_dict_eq (Network.make i o hs) m (make_wf i o hs) hm harch]
  refine ⟨_, rfl, ?_, rfl⟩
  rw [Network.archEq, Bool.and_eq_true]
  exact ⟨shapesEqList_refl _, shapeEq_refl _⟩

/-- Witness for C1: round trip at a concrete network built by
`fc_model.Network(3, 2, [4])`. -/
theorem checkpoint_roundtrip_witness :
    ∃ m', load_checkpoint (checkpointDict 3 2 (Network.make 3 2 [4])) = some m'
      ∧ Network.archEq m' (Network.make 3 2 [4]) = true
      ∧ m'.state_dict = (Network.make 3 2 [4]).state_dict :=
  checkpoint_roundtrip 3 2 [4] (Network.make 3 2 [4]) (by decide) (by decide)

/-- C4: The training loop of the MNIST cell processes every batch of the
dataloader (one loss value is recorded per batch) and, per batch, performs
in this order: flatten the images, forward pass, loss computation,
`optimizer.zero_grad()`, `loss.backward()`, `optimizer.step()` (followed
only by the loss accumulation); no operation before the optimizer step
changes the parameters, and the loss accumulation does not either. -/
theorem training_pass_order_and_frame
    (f : List ℚ → List ℚ → List ℚ) (c : List (List ℚ) → List Nat → ℚ)
    (g : List ℚ → List (List ℚ) → List Nat → List ℚ) (lr : ℚ) :
    (∀ b st, trainBatch f c g lr b st
        = opAccum (opStep lr (opBackward g b (opZeroGrad (opLoss c b
            (opForward f (opFlatten b st)))))))
    ∧ (∀ batches st, runEpoch f c g lr batches st
        = List.foldl (fun s b => trainBatch f c g lr b s)
            { st with running_loss := 0 } batches)
    ∧ (∀ batches st, (epochLosses f c g lr batches st).length = batches.length)
    ∧ (∀ b st, (opBackward g b (opZeroGrad (opLoss c b
          (opForward f (opFlatten b st))))).params = st.params)
    ∧ (∀ st, (opAccum st).params = st.params) := by
  refine ⟨fun b st => rfl, fun batches st => rfl, ?_, fun b st => rfl, fun st => rfl⟩
  intro batches
  induction batches with
  | nil => intro st; rfl
  | cons b bs ih => intro st; simp [epochLosses, ih]

/-- C5: The MNIST training cell runs `epochs = 5` epochs and the
saving/loading notebook calls `fc_model.train` with `epochs=2`; one value
is printed per epoch, and the printed value is the average training loss:
the sum of the per-batch loss values of that epoch divided by the number
of batches of the dataloader. -/
theorem epoch_loss_average
    (f : List ℚ → List ℚ → List ℚ) (c : List (List ℚ) → List Nat → ℚ)
    (g : List ℚ → List (List ℚ) → List Nat → List ℚ) (lr : ℚ) :
    mnistEpochs = 5 ∧ fcTrainEpochsArg = 2
    ∧ (∀ batches st, (epochPrint f c g lr batches st).1
        = (epochLosses f c g lr batches { st with running_loss := 0 }).sum
            / (batches.length : ℚ))
    ∧ (∀ n batches st, ((trainLoop f c g lr n batches st).1).length = n) := by
  refine ⟨rfl, rfl, ?_, ?_⟩
  · intro batches st
    show (runEpoch f c g lr batches st).running_loss / (batches.length : ℚ) = _
    rw [runEpoch, foldl_running_loss]
    simp
  · intro n
    induction n with
    | zero => intro batches st; rfl
    | succ n ih => intro batches st; simp [trainLoop, ih]

/-- C9: Gradients accumulate additively across backward passes: two
backward passes without zeroing leave the stored gradient equal to the sum
of the gradients each pass alone would produce, and after
`optimizer.zero_grad()` a backward pass yields exactly the gradient of the
current batch. -/
theorem grad_accumulate_and_reset
    (g : List ℚ → List (List ℚ) → List Nat → List ℚ) (b1 b2 : Batch) (st : LoopState)
    (h1 : (g st.params st.flat b1.labels).length = st.grads.length)
    (h2 : (g st.params st.flat b2.labels).length = st.grads.length) :
    (opBackward g b2 (opBackward g b1 (opZeroGrad st))).grads
        = List.zipWith (· + ·) ((opBackward g b1 (opZeroGrad st)).grads)
            ((opBackward g b2 (opZeroGrad st)).grads)
    ∧ (opBackward g b2 (opZeroGrad st)).grads = g st.params st.flat b2.labels := by
  have e1 : (opBackward g b1 (opZeroGrad st)).grads = g st.params st.flat b1.labels :=
    zipWith_add_zero_map st.grads _ h1
  have e2 : (opBackward g b2 (opZeroGrad st)).grads = g st.params st.flat b2.labels :=
    zipWith_add_zero_map st.grads _ h2
  refine ⟨?_, e2⟩
  show List.zipWith (· + ·) ((opBackward g b1 (opZeroGrad st)).grads)
      (g st.params st.flat b2.labels) = _
  rw [e1, e2]

/-- Witness for C9 at a concrete state and gradient function. -/
theorem grad_accumulate_and_reset_witness :
    (opBackward (fun _ _ ls => [((ls.headD 0 : Nat) : ℚ), 1]) ⟨[], [4]⟩
        (opBackward (fun _ _ ls => [((ls.headD 0 : Nat) : ℚ), 1]) ⟨[], [3]⟩
          (opZeroGrad ⟨[0, 0], [5, 6], 0, [], [], 0⟩))).grads
      = List.zipWith (· + ·)
          ((opBackward (fun _ _ ls => [((ls.headD 0 : Nat) : ℚ), 1]) ⟨[], [3]⟩
            (opZeroGrad ⟨[0, 0], [5, 6], 0, [], [], 0⟩)).grads)
          ((opBackward (fun _ _ ls => [((ls.headD 0 : Nat) : ℚ), 1]) ⟨[], [4]⟩
            (opZeroGrad ⟨[0, 0], [5, 6], 0, [], [], 0⟩)).grads)
    ∧ (opBackward (fun _ _ ls => [((ls.headD 0 : Nat) : ℚ), 1]) ⟨[], [4]⟩
        (opZeroGrad ⟨[0, 0], [5, 6], 0, [], [], 0⟩)).grads
      = (fun (_ : List ℚ) (_ : List (List ℚ)) (ls : List Nat) =>
          [((ls.headD 0 : Nat) : ℚ), 1]) [0, 0] [] [4] :=
  grad_accumulate_and_reset (fun _ _ ls => [((ls.headD 0 : Nat) : ℚ), 1])
    ⟨[], [3]⟩ ⟨[], [4]⟩ ⟨[0, 0], [5, 6], 0, [], [], 0⟩ rfl rfl

/-- C10: Only the optimizer step mutates parameter values: running any
sequence of notebook operations that does not contain `optimizer.step()`
(forward passes, loss computation, backward passes, gradient zeroing, loss
accumulation, reading the state dict, saving a checkpoint) leaves every
parameter unchanged, and a backward pass changes only the stored
gradients. -/
theorem params_change_only_on_step
    (f : List ℚ → List ℚ → List ℚ) (c : List (List ℚ) → List Nat → ℚ)
    (g : List ℚ → List (List ℚ) → List Nat → List ℚ) (lr : ℚ)
    (ops : List TOp) (ms : MState) (h : TOp.step ∉ ops) :
    (applyTOps f c g lr ops ms).loop.params = ms.loop.params
    ∧ (∀ b st, (opBackward g b st).params = st.params
        ∧ (opBackward g b st).running_loss = st.running_loss
        ∧ (opBackward g b st).flat = st.flat
        ∧ (opBackward g b st).output = st.output
        ∧ (opBackward g b st).lossv = st.lossv) := by
  refine ⟨?_, fun b st => ⟨rfl, rfl, rfl, rfl, rfl⟩⟩
  revert h
  induction ops generalizing ms with
  | nil => intro h; rfl
  | cons op ops ih =>
      intro h
      rw [List.mem_cons, not_or] at h
      rw [show applyTOps f c g lr (op :: ops) ms
            = applyTOps f c g lr ops (applyTOp f c g lr op ms) from rfl,
        ih _ h.2]
      cases op with
      | step => exact absurd rfl h.1
      | flatten b => rfl
      | forward => rfl
      | lossOf b => rfl
      | zeroGrad => rfl
      | backward b => rfl
      | accum => rfl
      | readStateDict => rfl
      | saveCheckpoint p => rfl

/-- Witness for C10: a concrete step-free operation sequence including a
checkpoint save and a state-dict read leaves the parameters unchanged. -/
theorem params_change_only_on_step_witness :
    (applyTOps (fun _ v => v) (fun _ _ => 0) (fun _ _ _ => []) 1
        [TOp.zeroGrad, TOp.saveCheckpoint "checkpoint.pth", TOp.readStateDict, TOp.forward]
        ⟨⟨[1], [2], 3, [], [], 0⟩, [], []⟩).loop.params
      = (⟨⟨[1], [2], 3, [], [], 0⟩, [], []⟩ : MState).loop.params :=
  (params_change_only_on_step (fun _ v => v) (fun _ _ => 0) (fun _ _ _ => []) 1
    [TOp.zeroGrad, TOp.saveCheckpoint "checkpoint.pth", TOp.readStateDict, TOp.forward]
    ⟨⟨[1], [2], 3, [], [], 0⟩, [], []⟩ (by decide)).1

/-- C7 as stated is false on the code: the very first storage-touching
call of the training notebook, `datasets.MNIST("~/.pytorch/MNIST_data/",
download=True, …)`, creates the dataset files under its root directory,
which is not `checkpoint.pth`. -/
theorem checkpoint_only_artifact_refuted :
    ¬ ∀ e ∈ notebookFsEvents, e.createsOrModifies = true → e.target = "checkpoint.pth" := by
  intro hall
  have h := hall (FsEvent.datasetDownload "~/.pytorch/MNIST_data/") (by decide) (by decide)
  exact absurd h (by decide)

/-- C7 amended: every `torch.save` performed by the notebooks writes the
serialized checkpoint to `checkpoint.pth`; the only other
persistent-storage modifications are the dataset downloads
(`datasets.MNIST` / `datasets.FashionMNIST` with `download=True`) into
their two dataset root directories. -/
theorem checkpoint_and_dataset_writes :
    (notebookFsEvents.all fun e =>
        !e.createsOrModifies
          || (e.target == "checkpoint.pth"
          || (e.target == "~/.pytorch/MNIST_data/"
          || e.target == "~/.pytorch/F_MNIST_data/"))) = true
    ∧ (notebookFsEvents.all fun e =>
        match e with
        | FsEvent.save p => p == "checkpoint.pth"
        | _ => true) = true := by
  exact ⟨by decide, by decide⟩
